import Mathlib

/-!
Verification of torch/serialization.py (object-graph serialization with
externalized storages).

The Python source is shallowly embedded: pure helpers become Lean
functions, the module-global package registry is threaded as an explicit
argument, raising code returns an Except value, machine integers are Nat,
and byte streams are lists of Nat.  External collaborators (the pickle
codec, the zipfile and tarfile containers, the storage runtime) are
modelled at the interface granularity the source uses them with.
-/

namespace Torch

/-- Python exceptions raised by the serialization module. -/
inductive PyErr where
  /-- RuntimeError with its message -/
  | runtime (msg : String)
  /-- KeyError (missing archive member), carrying the looked-up name -/
  | keyError (name : String)
  /-- TypeError (for example ord applied to an empty bytes object) -/
  | typeError (msg : String)
deriving DecidableEq, Repr

/-- Python string comparison: code-point lexicographic order on the
character sequences.  This is the order used by sorted() on the str keys
of the dedup table.  (Lean's builtin String order is propositionally the
same but does not reduce in the kernel, so we spell it out.) -/
def lexLe : List Char → List Char → Bool
  | [], _ => true
  | _ :: _, [] => false
  | c :: cs, d :: ds =>
    if c.toNat < d.toNat then true
    else if d.toNat < c.toNat then false
    else lexLe cs ds

/-- Python str less-or-equal, as used by sorted(). -/
def pyStrLe (a b : String) : Bool := lexLe a.data b.data

theorem lexLe_total (a b : List Char) : lexLe a b = true ∨ lexLe b a = true := by
  induction a generalizing b with
  | nil => left; rfl
  | cons c cs ih =>
    cases b with
    | nil => right; rfl
    | cons d ds =>
      by_cases h1 : c.toNat < d.toNat
      · left; simp [lexLe, h1]
      · by_cases h2 : d.toNat < c.toNat
        · right; simp [lexLe, h2]
        · rcases ih ds with h | h
          · left; simp [lexLe, h1, h2, h]
          · right; simp [lexLe, h1, h2, h]

theorem lexLe_trans {a b c : List Char} (h1 : lexLe a b = true)
    (h2 : lexLe b c = true) : lexLe a c = true := by
  induction a generalizing b c with
  | nil => rfl
  | cons x xs ih =>
    cases b with
    | nil => simp [lexLe] at h1
    | cons y ys =>
      cases c with
      | nil => simp [lexLe] at h2
      | cons z zs =>
        simp only [lexLe] at h1 h2 ⊢
        by_cases hxy : x.toNat < y.toNat
        · by_cases hyz : y.toNat < z.toNat
          · simp [show x.toNat < z.toNat by omega]
          · by_cases hzy : z.toNat < y.toNat
            · simp [lexLe, hyz, hzy] at h2
            · simp [show x.toNat < z.toNat by omega]
        · by_cases hyx : y.toNat < x.toNat
          · simp [hxy, hyx] at h1
          · have hxy2 : x.toNat = y.toNat := by omega
            by_cases hyz : y.toNat < z.toNat
            · simp [show x.toNat < z.toNat by omega]
            · by_cases hzy : z.toNat < y.toNat
              · simp [hyz, hzy] at h2
              · simp only [hxy, hyx, if_neg, ite_false] at h1
                simp only [hyz, hzy, if_neg, ite_false] at h2
                simp [show ¬ x.toNat < z.toNat by omega,
                      show ¬ z.toNat < x.toNat by omega, ih h1 h2]

theorem lexLe_antisymm {a b : List Char} (h1 : lexLe a b = true)
    (h2 : lexLe b a = true) : a = b := by
  induction a generalizing b with
  | nil =>
    cases b with
    | nil => rfl
    | cons d ds => simp [lexLe] at h2
  | cons c cs ih =>
    cases b with
    | nil => simp [lexLe] at h1
    | cons d ds =>
      simp only [lexLe] at h1 h2
      by_cases hcd : c.toNat < d.toNat
      · simp [show ¬ d.toNat < c.toNat by omega, hcd] at h2
      · by_cases hdc : d.toNat < c.toNat
        · simp [hcd, hdc] at h1
        · have hv : c = d := by
            have : c.toNat = d.toNat := by omega
            exact Char.eq_of_val_eq (UInt32.ext this)
          simp only [hcd, hdc, if_neg, ite_false] at h1 h2
          rw [hv, ih h1 h2]

instance pyStrLeRelDecidable :
    DecidableRel (fun a b : String => pyStrLe a b = true) :=
  fun a b => instDecidableEqBool (pyStrLe a b) true

instance pyStrLeRelTotal : IsTotal String (fun a b : String => pyStrLe a b = true) :=
  ⟨fun a b => lexLe_total a.data b.data⟩

instance pyStrLeRelTrans : IsTrans String (fun a b : String => pyStrLe a b = true) :=
  ⟨fun _ _ _ h1 h2 => lexLe_trans h1 h2⟩

instance pyStrLeRelAntisymm :
    IsAntisymm String (fun a b : String => pyStrLe a b = true) :=
  ⟨fun a b h1 h2 => String.ext (lexLe_antisymm h1 h2)⟩

/-! ## Byte streams and format detection

A seekable binary stream: the underlying bytes plus the current position.
read1 models f.read(1) in Python 3: it returns a one-byte bytes object,
or the empty bytes object (here: none) at end of file.  seek and tell are
the positional primitives the source requires of its input. -/

/-- A seekable byte stream (file object opened in binary mode). -/
structure ByteStream where
  data : List Nat
  pos : Nat
deriving DecidableEq, Repr

/-- f.read(1): one byte, or none (the empty bytes object) at end of file. -/
def ByteStream.read1 (f : ByteStream) : Option Nat × ByteStream :=
  match f.data.get? f.pos with
  | some b => (some b, ⟨f.data, f.pos + 1⟩)
  | none => (none, ⟨f.data, f.pos⟩)

/-- f.seek(n). -/
def ByteStream.seek (f : ByteStream) (n : Nat) : ByteStream := ⟨f.data, n⟩

/-- f.tell(). -/
def ByteStream.tell (f : ByteStream) : Nat := f.pos

/-- read_first_bytes(f, n) from the source: remember the position, seek to
offset 0, read single bytes in a loop, seek back.  Under Python 3 the loop
guard (byte != two-quote empty str) compares a bytes object with a str and
is therefore always true, so the loop always appends exactly 4 entries
(the n argument is never consulted); entries past end of file are the
empty bytes object, modelled as none. -/
def read_first_bytes (f : ByteStream) (n : Nat) : List (Option Nat) × ByteStream :=
  let start := f.tell
  let f0 := f.seek 0
  let f1 := f0.read1.2
  let f2 := f1.read1.2
  let f3 := f2.read1.2
  let f4 := f3.read1.2
  let _ := n
  ([f0.read1.1, f1.read1.1, f2.read1.1, f3.read1.1], f4.seek start)

/-- ord applied to one element of read_first_bytes' result: on a one-byte
bytes object it yields the byte value; on the empty bytes object (end of
file) Python raises a TypeError. -/
def ordRead : Option Nat → Except PyErr Nat
  | some b => .ok b
  | none => .error (.typeError "ord() expected a character, but string of length 0 found")

/-- The inner loop of _is_zipfile over one candidate magic number: compare
pairwise, stopping at the first mismatch (so ord is only applied to a
stream byte when all earlier pairs matched). -/
def magicMatch : List (Nat × Option Nat) → Except PyErr Bool
  | [] => .ok true
  | (m, rb) :: rest =>
    match ordRead rb with
    | .error e => .error e
    | .ok b => if m ≠ b then .ok false else magicMatch rest

/-- The zip local-file-header signatures checked by _is_zipfile
(the byte values of P, K, x03/x04, x05/x06, x07/x08). -/
def zipMagicNumbers : List (List Nat) :=
  [[80, 75, 3, 4], [80, 75, 5, 6], [80, 75, 7, 8]]

/-- The outer loop of _is_zipfile: true as soon as one magic number fully
matches the first bytes of the stream. -/
def anyMagicMatch (read_bytes : List (Option Nat)) : List (List Nat) → Except PyErr Bool
  | [] => .ok false
  | m :: ms =>
    match magicMatch (m.zip read_bytes) with
    | .error e => .error e
    | .ok true => .ok true
    | .ok false => anyMagicMatch read_bytes ms

/-- Source _is_zipfile: reads the first 4 bytes of f and compares them against the
zip magic numbers. -/
def _is_zipfile (f : ByteStream) : Except PyErr Bool :=
  let read_bytes := (read_first_bytes f 4).1
  anyMagicMatch read_bytes zipMagicNumbers

/-- The dynamically typed Python values compared by _is_legacy_picklefile:
the left operand is the list of bytes objects built by read_first_bytes,
the right operand is a str literal. -/
inductive PyVal where
  /-- a str, as a sequence of code points -/
  | pyStr (chars : List Nat)
  /-- a list of bytes objects, each of length at most one (none is the
  empty bytes object) -/
  | pyBytesList (items : List (Option Nat))
deriving DecidableEq

/-- Python equality between the two operand shapes above: values of
different types are never equal. -/
def pyEq : PyVal → PyVal → Bool
  | .pyStr a, .pyStr b => a = b
  | .pyBytesList a, .pyBytesList b => a = b
  | _, _ => false

/-- Source _is_legacy_picklefile from the source: it builds the list read_bytes
via read_first_bytes(f, 2) and evaluates the expression
read_bytes == <the three-character str literal b, x80, x02>.
The left operand is a list and the right operand is a str (the intended
bytes literal was mangled: the b prefix sits inside the quotes), so the
comparison is between values of different types. -/
def _is_legacy_picklefile (f : ByteStream) : Bool :=
  let read_bytes := (read_first_bytes f 2).1
  pyEq (.pyBytesList read_bytes) (.pyStr [98, 128, 2])

/-- Where torch.load routes a stream, as decided by the dispatch logic in
the body of load. -/
inductive DispatchResult where
  /-- the current-format archive reader _load runs -/
  | zipLoad
  /-- the legacy sequential-archive (tar) reader runs to completion -/
  | tarLoad
  /-- the legacy flat-stream reader _legacy_pickle_load runs -/
  | pickleLoad
  /-- RuntimeError: Unknown file type (expected a legacy tar file, legacy
  pickle file, or zip file) -/
  | unknownFileType
  /-- a Python exception escaped the format check itself -/
  | pyError (e : PyErr)
deriving DecidableEq, Repr

/-- The format dispatch in torch.load.  should_read_directly models
_should_read_directly(f) (whether f exposes a file descriptor), and
tar_ok models whether tarfile accepts the stream (the source attempts
_legacy_tar_load and catches tarfile.TarError).  Both depend on external
collaborators, so they are parameters of the model. -/
def load_dispatch (f : ByteStream) (should_read_directly : Bool)
    (tar_ok : Bool) : DispatchResult :=
  match _is_zipfile f with
  | .error e => .pyError e
  | .ok true => .zipLoad
  | .ok false =>
    if should_read_directly && (f.tell == 0) then
      if tar_ok then .tarLoad
      else if _is_legacy_picklefile f then .pickleLoad
      else .unknownFileType
    else .unknownFileType

/-! ## Storages and the location registry

A storage is a flat buffer of elements.  The fields mirror what the
source reads off a storage object: its identity (_cdata), the module of
its type (used by the taggers), its type name, the CUDA device index
(get_device), and the element contents.  root_cdata is runtime-level
bookkeeping only: it records, for a storage created as a sub-range of
another storage, the identity of that root (the source never consults
it in persistent_id, which is the point of claim C5). -/

/-- A storage object of the tensor runtime. -/
structure Storage where
  cdata : Nat
  module : String
  typeName : String
  device : Nat
  data : List Nat
  root_cdata : Option Nat
deriving DecidableEq, Repr

/-- obj.size(): the number of elements in the storage. -/
def Storage.size (s : Storage) : Nat := s.data.length

/-- torch.typename(obj): qualified type name used in error messages. -/
def torch_typename (s : Storage) : String := s.module ++ "." ++ s.typeName

/-- One entry of the package registry: (priority, tagger, deserializer).
A tagger returns a location tag or None; a deserializer may return a
restored storage, return None to decline, or raise. -/
structure PackageEntry where
  priority : Nat
  tagger : Storage → Option String
  deserializer : Storage → String → Except PyErr (Option Storage)

/-- register_package(priority, tagger, deserializer): append the triple to
the registry and sort.  Python sorts the tuples, which compares the
priorities first (and in the source all registered priorities are
distinct, so only priorities are ever compared). -/
def register_package (priority : Nat) (tagger : Storage → Option String)
    (deserializer : Storage → String → Except PyErr (Option Storage))
    (registry : List PackageEntry) : List PackageEntry :=
  List.insertionSort (fun a b : PackageEntry => a.priority ≤ b.priority)
    (registry ++ [⟨priority, tagger, deserializer⟩])

/-- Source _cpu_tag: storages whose type lives in the torch module are tagged cpu. -/
def _cpu_tag (obj : Storage) : Option String :=
  if obj.module = "torch" then some "cpu" else none

/-- Source _cuda_tag: storages whose type lives in torch.cuda are tagged with
their device index. -/
def _cuda_tag (obj : Storage) : Option String :=
  if obj.module = "torch.cuda" then some ("cuda:" ++ toString obj.device) else none

/-- Source _cpu_deserialize: a storage tagged cpu is returned unchanged. -/
def _cpu_deserialize (obj : Storage) (location : String) :
    Except PyErr (Option Storage) :=
  if location = "cpu" then .ok (some obj) else .ok none

/-- Source _cuda_deserialize: for a location starting with cuda, the source calls
validate_cuda_device, which raises because the modelled runtime has no
CUDA support (torch.cuda.is_available() is false); any other location is
declined. -/
def _cuda_deserialize (obj : Storage) (location : String) :
    Except PyErr (Option Storage) :=
  let _ := obj
  if location.startsWith "cuda" then
    .error (.runtime ("Attempting to deserialize object on a CUDA " ++
      "device but torch.cuda.is_available() is False. " ++
      "If you are running on a CPU-only machine, " ++
      "please use torch.load with map_location=torch.device(cpu) " ++
      "to map your storages to the CPU."))
  else .ok none

/-- The module-global package registry after the two module-level
register_package calls (priorities 10 and 20). -/
def _package_registry : List PackageEntry :=
  register_package 20 _cuda_tag _cuda_deserialize
    (register_package 10 _cpu_tag _cpu_deserialize [])

/-- location_tag(storage): run the taggers in registry order and return
the first truthy result (None and the empty string are falsy in Python);
raise if no tagger matches. -/
def location_tag (registry : List PackageEntry) (storage : Storage) :
    Except PyErr String :=
  match registry with
  | [] => .error (.runtime ("don't know how to determine data location of " ++
      torch_typename storage))
  | e :: rest =>
    match e.tagger storage with
    | some location =>
      if location = "" then location_tag rest storage else .ok location
    | none => location_tag rest storage

/-- default_restore_location(storage, location): run the deserializers in
registry order and return the first non-None result; raise if none match. -/
def default_restore_location (registry : List PackageEntry) (storage : Storage)
    (location : String) : Except PyErr Storage :=
  match registry with
  | [] => .error (.runtime ("don't know how to restore data location of " ++
      torch_typename storage ++ " (tagged with " ++ location ++ ")"))
  | e :: rest =>
    match e.deserializer storage location with
    | .error err => .error err
    | .ok (some result) => .ok result
    | .ok none => default_restore_location rest storage location

/-- torch.device objects, as far as this module looks at them: their str()
rendering. -/
structure TorchDevice where
  str : String
deriving DecidableEq

/-- The map_location argument of torch.load: absent, a tag-to-tag dict, a
target tag string, a torch.device, or a two-argument function. -/
inductive MapLocation where
  | missing
  | dict (m : List (String × String))
  | str (s : String)
  | device (d : TorchDevice)
  | fn (f : Storage → String → Option Storage)

/-- Lookup in a tag-to-tag dict (Python dict.get(key, default)). -/
def dictGetDefault (m : List (String × String)) (k : String) : String :=
  match m with
  | [] => k
  | (k1, v1) :: rest => if k1 = k then v1 else dictGetDefault rest k

/-- Source _get_restore_location(map_location): build the single restore function
used by the readers.  The registry argument stands for the module-global
_package_registry read by default_restore_location. -/
def _get_restore_location (registry : List PackageEntry) (map_location : MapLocation)
    (storage : Storage) (location : String) : Except PyErr Storage :=
  match map_location with
  | .missing => default_restore_location registry storage location
  | .dict m => default_restore_location registry storage (dictGetDefault m location)
  | .str s => default_restore_location registry storage s
  | .device d => default_restore_location registry storage d.str
  | .fn f =>
    match f storage location with
    | some result => .ok result
    | none => default_restore_location registry storage location

/-! ## Python dicts keyed by strings

The dedup table serialized_storages and the cache loaded_storages are
Python dicts; we model them as association lists where insertion updates
an existing key in place and otherwise appends (Python dicts keep
insertion order and hold each key once). -/

/-- Association-list lookup (Python: d.get(k) / k in d). -/
def dictFind (k : String) : List (String × α) → Option α
  | [] => none
  | (k1, v1) :: rest => if k1 = k then some v1 else dictFind k rest

/-- Association-list store (Python: d[k] = v). -/
def dictStore (k : String) (v : α) : List (String × α) → List (String × α)
  | [] => [(k, v)]
  | (k1, v1) :: rest =>
    if k1 = k then (k1, v) :: rest else (k1, v1) :: dictStore k v rest

/-! ## The object graph and the archive writer -/

/-- A tensor view: a non-owning window into a storage, described by a
storage offset, a size (shape) and a stride. -/
structure Tensor where
  storage : Storage
  storage_offset : Nat
  size : List Nat
  stride : List Nat
deriving DecidableEq, Repr

/-- An object graph handed to torch.save: opaque leaves, tensor views and
finite nesting (tuples, lists and dicts of the generic codec are all
instances of binary nesting). -/
inductive Obj where
  | leaf (v : Nat)
  | tens (t : Tensor)
  | pair (a b : Obj)
deriving DecidableEq, Repr

/-- The persistent-id tuple produced by the externalization hook:
(typename, storage type, key, location, element count, view metadata). -/
structure SavedRef where
  typename : String
  storage_type : String
  key : String
  location : String
  numel : Nat
  view_metadata : Option (String × Nat × Nat)
deriving DecidableEq, Repr

/-- The encoded object graph stored in the data member of the archive:
every storage has been replaced by its SavedRef; everything else is
passed through by the generic codec. -/
inductive EncObj where
  | leaf (v : Nat)
  | tens (ref : SavedRef) (storage_offset : Nat) (size stride : List Nat)
  | pair (a b : EncObj)
deriving DecidableEq, Repr

/-- normalize_storage_type: getattr(torch, cls.__name__), keeping the
name and moving the class to the torch module; only the name is recorded
in the reference. -/
def normalize_storage_type (typeName : String) : String := typeName

/-- The dedup table serialized_storages of one save call. -/
abbrev StorageTable := List (String × Storage)

/-- The externalization hook persistent_id of _save, acting on one
storage: compute the storage type, the key str(obj._cdata) and the
location tag, record the storage in the dedup table, and build the
reference tuple.  The is_view test of the source compares obj._cdata
with obj._cdata itself and is therefore always false, so view_metadata
is always None. -/
def persistent_id (registry : List PackageEntry) (tbl : StorageTable)
    (obj : Storage) : Except PyErr (SavedRef × StorageTable) :=
  let storage_type := normalize_storage_type obj.typeName
  let offset := 0
  let obj_key := toString obj.cdata
  match location_tag registry obj with
  | .error e => .error e
  | .ok location =>
    let tbl1 := dictStore obj_key obj tbl
    let is_view := decide (obj.cdata ≠ obj.cdata)
    let view_metadata :=
      if is_view then some (toString obj.cdata, offset, obj.size) else none
    .ok (⟨"storage", storage_type, obj_key, location, obj.size, view_metadata⟩, tbl1)

/-- The generic pickler of _save running over the object graph with the
persistent_id hook installed: non-storage nodes are encoded structurally
and each storage is replaced by the reference persistent_id returns,
threading the dedup table. -/
def encodeGraph (registry : List PackageEntry) :
    Obj → StorageTable → Except PyErr (EncObj × StorageTable)
  | .leaf v, tbl => .ok (.leaf v, tbl)
  | .tens t, tbl =>
    match persistent_id registry tbl t.storage with
    | .error e => .error e
    | .ok (ref, tbl1) => .ok (.tens ref t.storage_offset t.size t.stride, tbl1)
  | .pair a b, tbl =>
    match encodeGraph registry a tbl with
    | .error e => .error e
    | .ok (ea, tbl1) =>
      match encodeGraph registry b tbl1 with
      | .error e => .error e
      | .ok (eb, tbl2) => .ok (.pair ea eb, tbl2)

/-- The platform record written inside the metadata member. -/
structure SysInfo where
  protocol_version : Nat
  little_endian : Bool
  short_size : Nat
  int_size : Nat
  long_size : Nat
deriving DecidableEq, Repr

/-- The metadata record of the current archive format. -/
structure Metadata where
  magic_number : Nat
  protocol_version : Nat
  sys_info : SysInfo
deriving DecidableEq, Repr

/-- The fixed 80-bit magic constant of the format. -/
def MAGIC_NUMBER : Nat := 0x1950a86a20f9469cfc6c

/-- The fixed protocol version of the format. -/
def PROTOCOL_VERSION : Nat := 1002

/-- struct sizes of the modelled platform (=h, =i, =l on a 64-bit
little-endian build). -/
def SHORT_SIZE : Nat := 2
def INT_SIZE : Nat := 4
def LONG_SIZE : Nat := 8

/-- The current-format archive, decoded: the zipfile container holds
the metadata.pkl member (here: metadata), the data.pkl member (here:
data_record) and one member per externalized storage, listed with their
member paths in the order they were written. -/
structure Archive where
  metadata : Metadata
  data_record : EncObj
  members : List (String × List Nat)
deriving DecidableEq, Repr

/-- The metadata record _save writes. -/
def saveMetadata : Metadata :=
  { magic_number := MAGIC_NUMBER
    protocol_version := PROTOCOL_VERSION
    sys_info :=
      { protocol_version := PROTOCOL_VERSION
        little_endian := true
        short_size := SHORT_SIZE
        int_size := INT_SIZE
        long_size := LONG_SIZE } }

/-- serialized_storages[key] on a key known to be present (the iteration
below only uses keys of the table). -/
def tableEntry (tbl : StorageTable) (k : String) : Storage :=
  (dictFind k tbl).getD ⟨0, "", "", 0, [], none⟩

/-- Source _save: pickle the metadata record, pickle the object graph with the
persistent_id hook, then write one member tensors/<key> per entry of the
dedup table, iterating over sorted(serialized_storages.keys()); the
member holds the storage's raw contents (_write_file). -/
def _save (registry : List PackageEntry) (obj : Obj) : Except PyErr Archive :=
  match encodeGraph registry obj [] with
  | .error e => .error e
  | .ok (enc, tbl) =>
    let sortedKeys :=
      List.insertionSort (fun a b : String => pyStrLe a b = true)
        (tbl.map Prod.fst)
    let members := sortedKeys.map
      (fun k => ("tensors/" ++ k, (tableEntry tbl k).data))
    .ok { metadata := saveMetadata, data_record := enc, members := members }

/-! ## The current-archive reader -/

/-- zip_file.open(path, r): look the member up by its full path; zipfile
raises KeyError when there is no such member. -/
def zipOpen (members : List (String × List Nat)) (path : String) :
    Except PyErr (List Nat) :=
  match dictFind path members with
  | some bs => .ok bs
  | none => .error (.keyError path)

/-- data_type(size): allocate a fresh, uninitialized storage of the
declared element count; the class was normalized to the torch module. -/
def allocStorage (storage_type : String) (numel : Nat) : Storage :=
  ⟨0, "torch", storage_type, 0, List.replicate numel 0, none⟩

/-- storage[a : a + n]: the sub-range view produced by the readers when
materializing view metadata; it shares the root's contents and records
the root's identity. -/
def Storage.slice (s : Storage) (a n : Nat) : Storage :=
  ⟨s.cdata, s.module, s.typeName, s.device, (s.data.drop a).take n, some s.cdata⟩

/-- The cache loaded_storages of one load call. -/
abbrev LoadedTable := List (String × Storage)

/-- The persistent_load hook of _load acting on one reference tuple: check
the typename, materialize the keyed storage on first use (allocate,
relocate via the restore function, then fill it from the member
tensors/<key>), and resolve view metadata against the cache.  The source
stores the storage in loaded_storages before _set_from_file and then
mutates it in place; observably the cache ends up holding the storage
with the member's contents, which is what this model records. -/
def persistent_load (members : List (String × List Nat))
    (restore_location : Storage → String → Except PyErr Storage)
    (cache : LoadedTable) (saved_id : SavedRef) :
    Except PyErr (Storage × LoadedTable) :=
  if saved_id.typename ≠ "storage" then
    .error (.runtime ("Unknown typename for persistent_load, expected" ++
      " storage, but got: " ++ saved_id.typename))
  else
    let afterRoot : Except PyErr (Storage × LoadedTable) :=
      match dictFind saved_id.key cache with
      | some storage => .ok (storage, cache)
      | none =>
        match restore_location (allocStorage saved_id.storage_type saved_id.numel)
            saved_id.location with
        | .error e => .error e
        | .ok restored =>
          match zipOpen members ("tensors/" ++ saved_id.key) with
          | .error e => .error e
          | .ok bytes =>
            let filled : Storage :=
              ⟨restored.cdata, restored.module, restored.typeName,
                restored.device, bytes, restored.root_cdata⟩
            .ok (filled, dictStore saved_id.key filled cache)
    match afterRoot with
    | .error e => .error e
    | .ok (storage, cache1) =>
      match saved_id.view_metadata with
      | none => .ok (storage, cache1)
      | some (view_key, offset, view_size) =>
        match dictFind view_key cache1 with
        | some view => .ok (view, cache1)
        | none =>
          let view := storage.slice offset view_size
          .ok (view, dictStore view_key view cache1)

/-- The generic unpickler of _load running over the encoded graph with the
persistent_load hook installed, threading the cache. -/
def decodeGraph (members : List (String × List Nat))
    (restore_location : Storage → String → Except PyErr Storage) :
    EncObj → LoadedTable → Except PyErr (Obj × LoadedTable)
  | .leaf v, cache => .ok (.leaf v, cache)
  | .tens ref storage_offset size stride, cache =>
    match persistent_load members restore_location cache ref with
    | .error e => .error e
    | .ok (storage, cache1) =>
      .ok (.tens ⟨storage, storage_offset, size, stride⟩, cache1)
  | .pair a b, cache =>
    match decodeGraph members restore_location a cache with
    | .error e => .error e
    | .ok (oa, cache1) =>
      match decodeGraph members restore_location b cache1 with
      | .error e => .error e
      | .ok (ob, cache2) => .ok (.pair oa ob, cache2)

/-- Source _load: build the restore function, read and validate the metadata
record (magic number first, then protocol version; each failure raises
and nothing is returned), then unpickle the data record with the
persistent_load hook. -/
def _load (registry : List PackageEntry) (zip_file : Archive)
    (map_location : MapLocation) : Except PyErr Obj :=
  let restore_location := _get_restore_location registry map_location
  let metadata := zip_file.metadata
  if metadata.magic_number ≠ MAGIC_NUMBER then
    .error (.runtime "Invalid magic number; corrupt file?")
  else if metadata.protocol_version ≠ PROTOCOL_VERSION then
    .error (.runtime ("Invalid protocol version: " ++
      toString metadata.protocol_version ++ ", expected " ++
      toString PROTOCOL_VERSION))
  else
    match decodeGraph zip_file.members restore_location zip_file.data_record [] with
    | .error e => .error e
    | .ok (result, _) => .ok result

/-! ## The legacy sequential-archive reader and its temporary directory

mkdtemp in the source is a generator-based context manager: it creates a
temporary directory, yields it, and removes it after the yield.  There is
no try/finally around the yield, so Python's contextmanager protocol
(which throws an exception raised in the with body into the generator at
the yield point) lets such an exception propagate without ever reaching
the rmtree call: the directory is removed only on normal completion.
The file-system state tracks which temporary directories exist. -/

/-- The file-system state visible to mkdtemp: the temporary directories
currently on disk, and a counter for fresh names. -/
structure FS where
  tmpdirs : List Nat
  next_id : Nat
deriving DecidableEq, Repr

/-- tempfile.mkdtemp(): create a fresh directory. -/
def tempfile_mkdtemp (fs : FS) : Nat × FS :=
  (fs.next_id, ⟨fs.tmpdirs ++ [fs.next_id], fs.next_id + 1⟩)

/-- shutil.rmtree(path): remove the directory. -/
def shutil_rmtree (path : Nat) (fs : FS) : FS :=
  ⟨fs.tmpdirs.erase path, fs.next_id⟩

/-- Executing a with-statement over the mkdtemp context manager: enter
runs the generator up to the yield (creating the directory); on normal
exit the generator resumes past the yield and runs rmtree; on an
exception the contextmanager protocol throws the exception into the
generator at the yield, and because mkdtemp has no try/finally the
rmtree line is never executed and the exception propagates. -/
def with_mkdtemp (fs : FS) (body : Nat → Except PyErr α) :
    Except PyErr α × FS :=
  let (path, fs1) := tempfile_mkdtemp fs
  match body path with
  | .ok a => (.ok a, shutil_rmtree path fs1)
  | .error e => (.error e, fs1)

/-- A tar archive, decoded by the external tarfile module to the level the
source uses it: members retrievable by name. -/
structure TarFile where
  members : List (String × List Nat)
deriving DecidableEq, Repr

/-- tar.extract(name, path) / tar.extractfile(name): fetch the member's
bytes; tarfile raises KeyError when the member does not exist. -/
def TarFile.getmember (tar : TarFile) (name : String) :
    Except PyErr (List Nat) :=
  match dictFind name tar.members with
  | some bs => .ok bs
  | none => .error (.keyError name)

/-- Source _legacy_tar_load, around its temporary directory: inside the
with-statement the source extracts the storages member and reads it
(deserialized storages, then storage views), extracts the tensors member
and reads it (tensor descriptors), then unpickles the pickle member.
The three section readers are driven by the caller-supplied
pickle_module and by the storage runtime (both external collaborators,
as in the source where pickle_module is an argument of the function), so
they are modelled as parameters, threading the deserialized_objects
table of int-keyed objects; any extraction or section read may raise.
The tar handle itself was opened before mkdtemp is entered, so a stream
that tarfile rejects never creates a directory. -/
def _legacy_tar_load
    (read_storages : List Nat → Except PyErr (List (Nat × Obj)))
    (read_tensors : List (Nat × Obj) → List Nat → Except PyErr (List (Nat × Obj)))
    (read_pickle : List (Nat × Obj) → List Nat → Except PyErr Obj)
    (tar : TarFile) (fs : FS) : Except PyErr Obj × FS :=
  with_mkdtemp fs (fun _tmpdir =>
    match tar.getmember "storages" with
    | .error e => .error e
    | .ok storages_bytes =>
      match read_storages storages_bytes with
      | .error e => .error e
      | .ok objects1 =>
        match tar.getmember "tensors" with
        | .error e => .error e
        | .ok tensors_bytes =>
          match read_tensors objects1 tensors_bytes with
          | .error e => .error e
          | .ok objects2 =>
            match tar.getmember "pickle" with
            | .error e => .error e
            | .ok pickle_bytes => read_pickle objects2 pickle_bytes)

/-! ## Concrete fixtures used by witnesses and counterexamples -/

/-- A CPU storage with identity 7 holding three elements. -/
def cpuStorage : Storage := ⟨7, "torch", "FloatStorage", 0, [10, 20, 30], none⟩

/-- A second CPU storage with identity 12. -/
def cpuStorage2 : Storage := ⟨12, "torch", "IntStorage", 0, [5, 6], none⟩

/-- A storage whose type lives in neither torch nor torch.cuda, so no
built-in tagger matches it. -/
def foreignStorage : Storage := ⟨3, "numpy", "NdArray", 0, [1], none⟩

/-- A root CPU storage that will be keyed in the dedup table. -/
def rootStorage : Storage := ⟨1, "torch", "FloatStorage", 0, [1, 2, 3, 4], none⟩

/-- A storage that the runtime created as a sub-range of rootStorage
(elements 1 and 2 of its four): its root identity is recorded. -/
def viewStorage : Storage := ⟨2, "torch", "FloatStorage", 0, [2, 3], some 1⟩

/-- A dedup table in which rootStorage is already keyed. -/
def tableWithRoot : StorageTable := dictStore "1" rootStorage []

/-- Three tensor views over two distinct storages (cpuStorage is shared
by the first two views). -/
def exampleGraph : Obj :=
  .pair (.tens ⟨cpuStorage, 0, [3], [1]⟩)
    (.pair (.tens ⟨cpuStorage, 1, [2], [1]⟩) (.tens ⟨cpuStorage2, 0, [2], [1]⟩))

/-- An archive whose stored magic number is wrong. -/
def badMagicArchive : Archive :=
  ⟨⟨5, PROTOCOL_VERSION, saveMetadata.sys_info⟩, .leaf 0, []⟩

/-- An archive whose stored protocol version is wrong. -/
def badProtocolArchive : Archive :=
  ⟨⟨MAGIC_NUMBER, 999, saveMetadata.sys_info⟩, .leaf 0, []⟩

/-- Section readers that accept anything, for exercising the tar loader's
control flow. -/
def stubReadStorages : List Nat → Except PyErr (List (Nat × Obj)) := fun _ => .ok []
def stubReadTensors : List (Nat × Obj) → List Nat → Except PyErr (List (Nat × Obj)) :=
  fun objs _ => .ok objs
def stubReadPickle : List (Nat × Obj) → List Nat → Except PyErr Obj :=
  fun _ _ => .ok (.leaf 0)

/-- A well-formed tar archive (tarfile accepts it) that lacks the
storages member. -/
def tarMissingStorages : TarFile := ⟨[("data", [1])]⟩

/-- A tar archive holding all three expected members. -/
def tarComplete : TarFile := ⟨[("storages", []), ("tensors", []), ("pickle", [])]⟩

/-- An empty file system. -/
def fs0 : FS := ⟨[], 0⟩

/-! ## Claims about format detection -/

/-- Claim C10 (confirmed): read_first_bytes records the position with
tell, seeks to 0, reads, and seeks back, so the stream it returns is the
stream it was given: the position (and everything else) is unchanged by
the peek. -/
theorem c10_peek_preserves_position (f : ByteStream) (n : Nat) :
    (read_first_bytes f n).2 = f ∧ (read_first_bytes f n).2.pos = f.pos := by
  have h : ∀ s : ByteStream, s.read1.2.data = s.data := by
    intro s
    unfold ByteStream.read1
    split <;> rfl
  obtain ⟨d, p⟩ := f
  have hmain : (read_first_bytes ⟨d, p⟩ n).2 = ⟨d, p⟩ := by
    simp only [read_first_bytes, ByteStream.tell]
    have hc : ((⟨d, 0⟩ : ByteStream).read1.2.read1.2.read1.2.read1.2).data = d := by
      simp only [h]
    simp only [ByteStream.seek, hc]
  exact ⟨hmain, by rw [hmain]⟩

/-- Claim C4 (code bug): the source intends to dispatch a stream whose
first two bytes are the pickle protocol marker (x80 x02) to the legacy
flat-stream reader, but _is_legacy_picklefile compares the list of read
bytes against a str literal (the bytes literal was mangled, its b prefix
sits inside the quotes), and a Python list never equals a str: the
predicate is constantly false, so such a stream falls through to the
Unknown file type RuntimeError instead of reaching _legacy_pickle_load.
Evaluated here on the minimal marker stream: not a zip archive, tar
parsing failed, first two bytes are the marker, and dispatch still ends
in unknownFileType. -/
theorem c4_legacy_pickle_dispatch_bug :
    (∀ f : ByteStream, _is_legacy_picklefile f = false) ∧
    _is_zipfile ⟨[128, 2], 0⟩ = .ok false ∧
    load_dispatch ⟨[128, 2], 0⟩ true false = .unknownFileType :=
  ⟨fun _ => rfl, rfl, rfl⟩

/-- Claim C3 (code bug): the mkdtemp context manager has no try/finally
around its yield, so an exception raised while reading the archive
sections skips shutil.rmtree.  Concretely: a tar archive without a
storages member makes tar.extract raise KeyError inside the with block,
load re-raises it (KeyError is not a TarError), and the temporary
directory (id 0) is left on the file system; on the success path the
directory is removed.  The claim that the directory is removed on every
exit path is therefore false on the error paths. -/
theorem c3_tmpdir_leaked_on_error :
    (_legacy_tar_load stubReadStorages stubReadTensors stubReadPickle
        tarMissingStorages fs0).1 = .error (.keyError "storages") ∧
    (_legacy_tar_load stubReadStorages stubReadTensors stubReadPickle
        tarMissingStorages fs0).2.tmpdirs = [0] ∧
    (_legacy_tar_load stubReadStorages stubReadTensors stubReadPickle
        tarComplete fs0).2.tmpdirs = [] :=
  ⟨rfl, rfl, rfl⟩

/-! ## Claims about the externalization hook -/

/-- Claim C5, counterexample: viewStorage is a sub-range of the
already-keyed rootStorage (its root identity is recorded and the root's
key is in the dedup table), yet persistent_id returns a reference whose
view-metadata component is None — not the (root key, offset, count)
tuple the claim requires for view buffers. -/
theorem c5_counterexample_view_metadata :
    viewStorage.root_cdata = some rootStorage.cdata ∧
    dictFind (toString rootStorage.cdata) tableWithRoot = some rootStorage ∧
    persistent_id _package_registry tableWithRoot viewStorage =
      .ok (⟨"storage", "FloatStorage", "2", "cpu", 2, none⟩,
        dictStore "2" viewStorage tableWithRoot) :=
  ⟨rfl, rfl, rfl⟩

/-- Claim C5 as amended: the externalization hook returns view-metadata
None for every storage, root or view alike — the is_view test of the
source compares the storage's identity with itself, so it never fires. -/
theorem c5_view_metadata_always_none (registry : List PackageEntry)
    (tbl : StorageTable) (s : Storage) (ref : SavedRef) (tbl1 : StorageTable)
    (h : persistent_id registry tbl s = .ok (ref, tbl1)) :
    ref.view_metadata = none := by
  unfold persistent_id at h
  cases hl : location_tag registry s <;> rw [hl] at h
  · exact absurd h (by simp)
  · simp only [Except.ok.injEq, Prod.mk.injEq] at h
    rw [← h.1]
    simp

/-- Witness for the amended C5 theorem at a concrete input. -/
theorem c5_view_metadata_always_none_witness :
    (SavedRef.mk "storage" "FloatStorage" "2" "cpu" 2 none).view_metadata = none :=
  c5_view_metadata_always_none _package_registry tableWithRoot viewStorage
    ⟨"storage", "FloatStorage", "2", "cpu", 2, none⟩
    (dictStore "2" viewStorage tableWithRoot) rfl

/-! ## Claims about the location remapper and registry -/

/-- Claim C9 (confirmed): when map_location is a two-argument function,
the built restore function calls it on (storage, original location); a
None result falls back to the registry's default restore, and a non-None
result is returned as is — no storage is dropped. -/
theorem c9_function_remap_fallback (registry : List PackageEntry)
    (f : Storage → String → Option Storage) (storage : Storage) (location : String) :
    (f storage location = none →
      _get_restore_location registry (.fn f) storage location =
        default_restore_location registry storage location) ∧
    (∀ result, f storage location = some result →
      _get_restore_location registry (.fn f) storage location = .ok result) := by
  constructor
  · intro h; simp [_get_restore_location, h]
  · intro r h; simp [_get_restore_location, h]

/-- Witness for C9: a user function that always declines falls back to
the default restore on a concrete cpu storage. -/
theorem c9_function_remap_fallback_witness :
    _get_restore_location _package_registry (.fn (fun _ _ => none)) cpuStorage "cpu" =
      default_restore_location _package_registry cpuStorage "cpu" :=
  (c9_function_remap_fallback _package_registry (fun _ _ => none) cpuStorage "cpu").1 rfl

/-! ## Claims about the current-archive reader's validation -/

/-- Claim C7 (confirmed): _load validates the metadata record before
touching the data record: a magic-number mismatch raises the corrupt-file
RuntimeError, and with the magic number right, a protocol-version
mismatch raises a RuntimeError whose message carries the observed and the
expected versions; in both cases _load returns an error and no object
graph, partial or otherwise. -/
theorem c7_metadata_validation (zip_file : Archive) (map_location : MapLocation) :
    (zip_file.metadata.magic_number ≠ MAGIC_NUMBER →
      _load _package_registry zip_file map_location =
        .error (.runtime "Invalid magic number; corrupt file?")) ∧
    (zip_file.metadata.magic_number = MAGIC_NUMBER →
      zip_file.metadata.protocol_version ≠ PROTOCOL_VERSION →
      _load _package_registry zip_file map_location =
        .error (.runtime ("Invalid protocol version: " ++
          toString zip_file.metadata.protocol_version ++ ", expected " ++
          toString PROTOCOL_VERSION))) := by
  constructor
  · intro h; simp [_load, h]
  · intro h1 h2; simp [_load, h1, h2]

/-- Witness for C7 on concrete corrupted archives. -/
theorem c7_metadata_validation_witness :
    _load _package_registry badMagicArchive .missing =
      .error (.runtime "Invalid magic number; corrupt file?") ∧
    _load _package_registry badProtocolArchive .missing =
      .error (.runtime ("Invalid protocol version: " ++
        toString badProtocolArchive.metadata.protocol_version ++ ", expected " ++
        toString PROTOCOL_VERSION)) :=
  ⟨(c7_metadata_validation badMagicArchive .missing).1 (by decide),
   (c7_metadata_validation badProtocolArchive .missing).2 (by decide) (by decide)⟩

/-! ## Claim C8: registry order and tagging -/

/-- Python truthiness of a tagger's result: None and the empty string are
falsy, so only a non-empty tag counts as a match. -/
def truthyTag : Option String → Option String
  | some t => if t = "" then none else some t
  | none => none

instance packagePriorityRelTotal :
    IsTotal PackageEntry (fun a b : PackageEntry => a.priority ≤ b.priority) :=
  ⟨fun a b => Nat.le_total a.priority b.priority⟩

instance packagePriorityRelTrans :
    IsTrans PackageEntry (fun a b : PackageEntry => a.priority ≤ b.priority) :=
  ⟨fun _ _ _ h1 h2 => Nat.le_trans h1 h2⟩

theorem location_tag_ok_first (registry : List PackageEntry) (storage : Storage)
    (tag : String) (h : location_tag registry storage = .ok tag) :
    ∃ i : Fin registry.length, truthyTag ((registry.get i).tagger storage) = some tag ∧
      ∀ j : Fin registry.length, j.val < i.val →
        truthyTag ((registry.get j).tagger storage) = none := by
  induction registry with
  | nil => simp [location_tag] at h
  | cons e rest ih =>
    rw [location_tag] at h
    cases ht : e.tagger storage with
    | some l =>
      rw [ht] at h
      replace h : (if l = "" then location_tag rest storage else Except.ok l) =
        Except.ok tag := h
      by_cases hl : l = ""
      · rw [if_pos hl] at h
        obtain ⟨i, hi, hj⟩ := ih h
        refine ⟨⟨i.val + 1, by simpa using i.isLt⟩, by simpa using hi, ?_⟩
        intro j hj2
        match j with
        | ⟨0, _⟩ => simp [truthyTag, ht, hl]
        | ⟨jv + 1, hjp⟩ =>
          have := hj ⟨jv, by simpa using hjp⟩ (Nat.lt_of_succ_lt_succ hj2)
          simpa using this
      · rw [if_neg hl] at h
        have hlt : l = tag := by simpa using h
        subst hlt
        refine ⟨⟨0, by simp⟩, ?_, ?_⟩
        · show truthyTag (e.tagger storage) = some l
          rw [ht]
          simp [truthyTag, hl]
        · intro j hj2
          exact absurd hj2 (Nat.not_lt_zero _)
    | none =>
      rw [ht] at h
      replace h : location_tag rest storage = Except.ok tag := h
      obtain ⟨i, hi, hj⟩ := ih h
      refine ⟨⟨i.val + 1, by simpa using i.isLt⟩, by simpa using hi, ?_⟩
      intro j hj2
      match j with
      | ⟨0, _⟩ => simp [truthyTag, ht]
      | ⟨jv + 1, hjp⟩ =>
        have := hj ⟨jv, by simpa using hjp⟩ (Nat.lt_of_succ_lt_succ hj2)
        simpa using this

theorem location_tag_error_of_no_tag (registry : List PackageEntry) (storage : Storage)
    (h : ∀ i : Fin registry.length, truthyTag ((registry.get i).tagger storage) = none) :
    location_tag registry storage =
      .error (.runtime ("don't know how to determine data location of " ++
        torch_typename storage)) := by
  induction registry with
  | nil => rfl
  | cons e rest ih =>
    have h0 : truthyTag (e.tagger storage) = none := h ⟨0, by simp⟩
    have hrest : ∀ i : Fin rest.length,
        truthyTag ((rest.get i).tagger storage) = none := by
      intro i
      have := h ⟨i.val + 1, by simpa using i.isLt⟩
      simpa using this
    rw [location_tag]
    cases ht : e.tagger storage with
    | none => exact ih hrest
    | some l =>
      rw [ht] at h0
      by_cases hl : l = ""
      · show (if l = "" then location_tag rest storage else Except.ok l) = _
        rw [if_pos hl]
        exact ih hrest
      · simp [truthyTag, hl] at h0

/-- Claim C8 (confirmed): register_package keeps the registry sorted by
ascending priority (so taggers run in ascending priority order);
location_tag returns the tag of the first (lowest-index, hence
lowest-priority) tagger whose result is truthy, every earlier tagger
having yielded nothing; and when no tagger yields a tag it raises a
RuntimeError whose message carries the storage's type name. -/
theorem c8_location_registry (registry : List PackageEntry) (storage : Storage) :
    (∀ (priority : Nat) (tagger : Storage → Option String)
      (deserializer : Storage → String → Except PyErr (Option Storage))
      (reg : List PackageEntry),
      List.Sorted (fun a b : PackageEntry => a.priority ≤ b.priority)
        (register_package priority tagger deserializer reg)) ∧
    (∀ tag, location_tag registry storage = .ok tag →
      ∃ i : Fin registry.length,
        truthyTag ((registry.get i).tagger storage) = some tag ∧
        ∀ j : Fin registry.length, j.val < i.val →
          truthyTag ((registry.get j).tagger storage) = none) ∧
    ((∀ i : Fin registry.length, truthyTag ((registry.get i).tagger storage) = none) →
      location_tag registry storage =
        .error (.runtime ("don't know how to determine data location of " ++
          torch_typename storage))) :=
  ⟨fun p t d reg => by
    rw [register_package]
    exact List.sorted_insertionSort
      (fun a b : PackageEntry => a.priority ≤ b.priority) (reg ++ [⟨p, t, d⟩]),
   fun tag h => location_tag_ok_first registry storage tag h,
   fun h => location_tag_error_of_no_tag registry storage h⟩

/-- Witness for C8: on a storage no built-in tagger recognizes, the
registry raises the UnknownLocation RuntimeError naming the type. -/
theorem c8_location_registry_witness :
    location_tag _package_registry foreignStorage =
      .error (.runtime ("don't know how to determine data location of " ++
        torch_typename foreignStorage)) :=
  (c8_location_registry _package_registry foreignStorage).2.2 (by decide)

/-! ## Dictionary lemmas -/

theorem dictFind_dictStore {α : Type} (k k1 : String) (v : α)
    (l : List (String × α)) :
    dictFind k (dictStore k1 v l) = if k1 = k then some v else dictFind k l := by
  induction l with
  | nil => simp [dictStore, dictFind]
  | cons kv rest ih =>
    obtain ⟨k2, v2⟩ := kv
    by_cases h12 : k2 = k1
    · subst h12
      by_cases hk : k2 = k
      · subst hk; simp [dictStore, dictFind]
      · simp [dictStore, dictFind, hk]
    · by_cases hk : k2 = k
      · subst hk
        have : k1 ≠ k2 := fun he => h12 he.symm
        simp [dictStore, dictFind, h12, this]
      · simp [dictStore, dictFind, h12, hk, ih]

theorem dictStore_keys_mem {α : Type} (k : String) (v : α) (l : List (String × α))
    (h : k ∈ l.map Prod.fst) :
    (dictStore k v l).map Prod.fst = l.map Prod.fst := by
  induction l with
  | nil => simp at h
  | cons kv rest ih =>
    obtain ⟨k2, v2⟩ := kv
    by_cases h2 : k2 = k
    · subst h2; simp [dictStore]
    · simp only [List.map_cons, List.mem_cons] at h
      rcases h with h | h

      · exact absurd h.symm h2
      · simp [dictStore, h2, ih h]

theorem dictStore_keys_new {α : Type} (k : String) (v : α) (l : List (String × α))
    (h : k ∉ l.map Prod.fst) :
    (dictStore k v l).map Prod.fst = l.map Prod.fst ++ [k] := by
  induction l with
  | nil => simp [dictStore]
  | cons kv rest ih =>
    obtain ⟨k2, v2⟩ := kv
    simp only [List.map_cons, List.mem_cons] at h
    push_neg at h
    have h2 : k2 ≠ k := fun he => h.1 he.symm
    simp [dictStore, h2, ih h.2]

theorem dictStore_keys_nodup {α : Type} (k : String) (v : α) (l : List (String × α))
    (h : (l.map Prod.fst).Nodup) : ((dictStore k v l).map Prod.fst).Nodup := by
  by_cases hm : k ∈ l.map Prod.fst
  · rw [dictStore_keys_mem k v l hm]; exact h
  · rw [dictStore_keys_new k v l hm]
    simp [List.nodup_append, h, hm]

theorem dictFind_isSome_iff_mem {α : Type} (k : String) (l : List (String × α)) :
    (∃ v, dictFind k l = some v) ↔ k ∈ l.map Prod.fst := by
  induction l with
  | nil => simp [dictFind]
  | cons kv rest ih =>
    obtain ⟨k2, v2⟩ := kv
    by_cases h2 : k2 = k
    · subst h2; simp [dictFind]
    · have h2b : k ≠ k2 := fun he => h2 he.symm
      simp [dictFind, h2, h2b, ih]

/-! ## The storages of an object graph -/

/-- The storages referenced by the tensor views of a graph, in traversal
order. -/
def storagesOf : Obj → List Storage
  | .leaf _ => []
  | .tens t => [t.storage]
  | .pair a b => storagesOf a ++ storagesOf b

/-- The dedup-table key of a storage: str(obj._cdata). -/
def storageKey (s : Storage) : String := toString s.cdata

/-- Every storage of the graph lives on the CPU (its type is in the torch
module), so the built-in cpu tagger matches it. -/
def AllCpu (g : Obj) : Prop := ∀ s ∈ storagesOf g, s.module = "torch"

/-- Python-identity coherence: the dedup table is keyed by str(_cdata),
and in Python two storages with the same identity key are one and the
same object.  A graph of Lean values represents a Python object graph
exactly when storages agreeing on the key agree entirely. -/
def Coherent (g : Obj) : Prop :=
  ∀ s1 ∈ storagesOf g, ∀ s2 ∈ storagesOf g, storageKey s1 = storageKey s2 → s1 = s2

instance allCpuDecidable (g : Obj) : Decidable (AllCpu g) :=
  inferInstanceAs (Decidable (∀ s ∈ storagesOf g, s.module = "torch"))

instance coherentDecidable (g : Obj) : Decidable (Coherent g) :=
  inferInstanceAs (Decidable (∀ s1 ∈ storagesOf g, ∀ s2 ∈ storagesOf g,
    storageKey s1 = storageKey s2 → s1 = s2))

theorem allCpu_pair_left {a b : Obj} (h : AllCpu (.pair a b)) : AllCpu a :=
  fun s hs => h s (by simp [storagesOf]; exact Or.inl hs)

theorem allCpu_pair_right {a b : Obj} (h : AllCpu (.pair a b)) : AllCpu b :=
  fun s hs => h s (by simp [storagesOf]; exact Or.inr hs)

/-! ## Evaluation of the built-in registry -/

theorem package_registry_eval :
    _package_registry =
      [⟨10, _cpu_tag, _cpu_deserialize⟩, ⟨20, _cuda_tag, _cuda_deserialize⟩] := rfl

theorem location_tag_cpu (s : Storage) (h : s.module = "torch") :
    location_tag _package_registry s = .ok "cpu" := by
  rw [package_registry_eval]
  simp [location_tag, _cpu_tag, h]

theorem default_restore_cpu (s : Storage) :
    default_restore_location _package_registry s "cpu" = .ok s := by
  rw [package_registry_eval]
  simp [default_restore_location, _cpu_deserialize]

theorem persistent_id_cpu (tbl : StorageTable) (s : Storage) (h : s.module = "torch") :
    persistent_id _package_registry tbl s =
      .ok (⟨"storage", s.typeName, toString s.cdata, "cpu", s.size, none⟩,
        dictStore (toString s.cdata) s tbl) := by
  simp [persistent_id, location_tag_cpu s h, normalize_storage_type]

/-! ## The dedup table built by encoding -/

theorem persistent_id_table {registry : List PackageEntry} {tbl : StorageTable}
    {s : Storage} {ref : SavedRef} {tbl1 : StorageTable}
    (h : persistent_id registry tbl s = .ok (ref, tbl1)) :
    tbl1 = dictStore (storageKey s) s tbl := by
  unfold persistent_id at h
  cases hl : location_tag registry s <;> rw [hl] at h
  · exact absurd h (by simp)
  · simp only [Except.ok.injEq, Prod.mk.injEq] at h
    exact h.2.symm

theorem encodeGraph_ok (registry : List PackageEntry) (g : Obj)
    (hcpu : ∀ s ∈ storagesOf g, location_tag registry s = .ok "cpu") :
    ∀ tbl, ∃ e tbl1, encodeGraph registry g tbl = .ok (e, tbl1) := by
  induction g with
  | leaf v => exact fun tbl => ⟨.leaf v, tbl, rfl⟩
  | tens t =>
    intro tbl
    have hm := hcpu t.storage (by simp [storagesOf])
    refine ⟨.tens ⟨"storage", normalize_storage_type t.storage.typeName,
      toString t.storage.cdata, "cpu", t.storage.size, none⟩
      t.storage_offset t.size t.stride,
      dictStore (toString t.storage.cdata) t.storage tbl, ?_⟩
    simp [encodeGraph, persistent_id, hm]
  | pair a b iha ihb =>
    intro tbl
    obtain ⟨ea, t1, ha⟩ := iha
      (fun s hs => hcpu s (by simp [storagesOf]; exact Or.inl hs)) tbl
    obtain ⟨eb, t2, hb⟩ := ihb
      (fun s hs => hcpu s (by simp [storagesOf]; exact Or.inr hs)) t1
    exact ⟨.pair ea eb, t2, by simp [encodeGraph, ha, hb]⟩

theorem encodeGraph_leaf_inv {registry : List PackageEntry} {v : Nat}
    {tbl : StorageTable} {e : EncObj} {tbl1 : StorageTable}
    (h : encodeGraph registry (.leaf v) tbl = .ok (e, tbl1)) :
    e = .leaf v ∧ tbl1 = tbl := by
  simp only [encodeGraph, Except.ok.injEq, Prod.mk.injEq] at h
  exact ⟨h.1.symm, h.2.symm⟩

theorem encodeGraph_tens_inv {registry : List PackageEntry} {t : Tensor}
    {tbl : StorageTable} {e : EncObj} {tbl1 : StorageTable}
    (h : encodeGraph registry (.tens t) tbl = .ok (e, tbl1)) :
    ∃ ref, persistent_id registry tbl t.storage = .ok (ref, tbl1) ∧
      e = .tens ref t.storage_offset t.size t.stride := by
  rw [encodeGraph] at h
  cases hp : persistent_id registry tbl t.storage with
  | error err => rw [hp] at h; exact absurd h (by simp)
  | ok pa =>
    obtain ⟨ref, tblx⟩ := pa
    rw [hp] at h
    replace h : Except.ok (EncObj.tens ref t.storage_offset t.size t.stride, tblx) =
      Except.ok (e, tbl1) := h
    simp only [Except.ok.injEq, Prod.mk.injEq] at h
    obtain ⟨h1, h2⟩ := h
    subst h2
    exact ⟨ref, rfl, h1.symm⟩

theorem encodeGraph_pair_inv {registry : List PackageEntry} {a b : Obj}
    {tbl : StorageTable} {e : EncObj} {tbl1 : StorageTable}
    (h : encodeGraph registry (.pair a b) tbl = .ok (e, tbl1)) :
    ∃ ea tbla eb, encodeGraph registry a tbl = .ok (ea, tbla) ∧
      encodeGraph registry b tbla = .ok (eb, tbl1) ∧ e = .pair ea eb := by
  rw [encodeGraph] at h
  cases ha : encodeGraph registry a tbl with
  | error err => rw [ha] at h; exact absurd h (by simp)
  | ok pa =>
    obtain ⟨ea, tbla⟩ := pa
    rw [ha] at h
    replace h : (match encodeGraph registry b tbla with
      | Except.error err => Except.error err
      | Except.ok (eb, tbl2) => Except.ok (EncObj.pair ea eb, tbl2)) =
      Except.ok (e, tbl1) := h
    cases hb : encodeGraph registry b tbla with
    | error err => rw [hb] at h; exact absurd h (by simp)
    | ok pb =>
      obtain ⟨eb, tblb⟩ := pb
      rw [hb] at h
      replace h : Except.ok (EncObj.pair ea eb, tblb) = Except.ok (e, tbl1) := h
      simp only [Except.ok.injEq, Prod.mk.injEq] at h
      obtain ⟨h1, h2⟩ := h
      subst h2
      exact ⟨ea, tbla, eb, rfl, hb, h1.symm⟩

theorem encodeGraph_table {registry : List PackageEntry} (g : Obj) :
    ∀ tbl e tbl1, encodeGraph registry g tbl = .ok (e, tbl1) →
      (∀ k v, dictFind k tbl1 = some v →
        dictFind k tbl = some v ∨ (v ∈ storagesOf g ∧ storageKey v = k)) ∧
      (∀ k v, dictFind k tbl = some v → ∃ v1, dictFind k tbl1 = some v1) ∧
      (∀ s ∈ storagesOf g, ∃ v1, dictFind (storageKey s) tbl1 = some v1) := by
  induction g with
  | leaf v =>
    intro tbl e tbl1 h
    obtain ⟨he, ht⟩ := encodeGraph_leaf_inv h
    rw [ht]
    exact ⟨fun k v hv => Or.inl hv, fun k v hv => ⟨v, hv⟩, by simp [storagesOf]⟩
  | tens t =>
    intro tbl e tbl1 h
    obtain ⟨ref, hp, he⟩ := encodeGraph_tens_inv h
    rw [persistent_id_table hp]
    refine ⟨?_, ?_, ?_⟩
    · intro k v hv
      rw [dictFind_dictStore] at hv
      by_cases hk : storageKey t.storage = k
      · rw [if_pos hk] at hv
        right
        cases hv
        exact ⟨by simp [storagesOf], hk⟩
      · rw [if_neg hk] at hv
        exact Or.inl hv
    · intro k v hv
      rw [dictFind_dictStore]
      by_cases hk : storageKey t.storage = k
      · exact ⟨t.storage, by rw [if_pos hk]⟩
      · exact ⟨v, by rw [if_neg hk]; exact hv⟩
    · intro s hs
      rw [show s = t.storage by simpa [storagesOf] using hs]
      exact ⟨t.storage, by rw [dictFind_dictStore, if_pos rfl]⟩
  | pair a b iha ihb =>
    intro tbl e tbl1 h
    obtain ⟨ea, tbla, eb, ha, hb, he⟩ := encodeGraph_pair_inv h
    obtain ⟨ha1, ha2, ha3⟩ := iha tbl ea tbla ha
    obtain ⟨hb1, hb2, hb3⟩ := ihb tbla eb tbl1 hb
    refine ⟨?_, ?_, ?_⟩
    · intro k v hv
      rcases hb1 k v hv with hv1 | hv1
      · rcases ha1 k v hv1 with hv2 | hv2
        · exact Or.inl hv2
        · exact Or.inr ⟨by simp [storagesOf]; exact Or.inl hv2.1, hv2.2⟩
      · exact Or.inr ⟨by simp [storagesOf]; exact Or.inr hv1.1, hv1.2⟩
    · intro k v hv
      obtain ⟨v1, hv1⟩ := ha2 k v hv
      exact hb2 k v1 hv1
    · intro s hs
      rcases (by simpa [storagesOf] using hs : s ∈ storagesOf a ∨ s ∈ storagesOf b)
        with hs1 | hs1
      · obtain ⟨v1, hv1⟩ := ha3 s hs1
        exact hb2 _ v1 hv1
      · exact hb3 s hs1

theorem encodeGraph_keys_nodup {registry : List PackageEntry} (g : Obj) :
    ∀ tbl e tbl1, encodeGraph registry g tbl = .ok (e, tbl1) →
      (tbl.map Prod.fst).Nodup → (tbl1.map Prod.fst).Nodup := by
  induction g with
  | leaf v =>
    intro tbl e tbl1 h hn
    rw [(encodeGraph_leaf_inv h).2]
    exact hn
  | tens t =>
    intro tbl e tbl1 h hn
    obtain ⟨ref, hp, he⟩ := encodeGraph_tens_inv h
    rw [persistent_id_table hp]
    exact dictStore_keys_nodup _ _ _ hn
  | pair a b iha ihb =>
    intro tbl e tbl1 h hn
    obtain ⟨ea, tbla, eb, ha, hb, he⟩ := encodeGraph_pair_inv h
    exact ihb tbla eb tbl1 hb (iha tbl ea tbla ha hn)


/-! ## The members written by _save -/

theorem tensors_path_injective :
    Function.Injective (fun k : String => "tensors/" ++ k) := by
  intro a b h
  have h2 := congrArg String.data h
  simp only [String.data_append] at h2
  exact String.ext (List.append_cancel_left h2)

theorem lexLe_append_left (p x y : List Char) : lexLe (p ++ x) (p ++ y) = lexLe x y := by
  induction p with
  | nil => rfl
  | cons c cs ih => simp [lexLe, ih]

theorem pyStrLe_tensors_prefix {a b : String} (h : pyStrLe a b = true) :
    pyStrLe ("tensors/" ++ a) ("tensors/" ++ b) = true := by
  unfold pyStrLe at h ⊢
  rw [String.data_append, String.data_append, lexLe_append_left]
  exact h

theorem save_inv {registry : List PackageEntry} {g : Obj} {ar : Archive}
    (h : _save registry g = .ok ar) :
    ∃ e tbl, encodeGraph registry g [] = .ok (e, tbl) ∧
      ar = Archive.mk saveMetadata e
        ((List.insertionSort (fun a b : String => pyStrLe a b = true)
          (tbl.map Prod.fst)).map
          (fun k => ("tensors/" ++ k, (tableEntry tbl k).data))) := by
  rw [_save] at h
  cases he : encodeGraph registry g [] with
  | error err => rw [he] at h; exact absurd h (by simp)
  | ok p =>
    obtain ⟨e, tbl⟩ := p
    rw [he] at h
    replace h : Except.ok (Archive.mk saveMetadata e
      ((List.insertionSort (fun a b : String => pyStrLe a b = true)
        (tbl.map Prod.fst)).map
        (fun k => ("tensors/" ++ k, (tableEntry tbl k).data)))) = Except.ok ar := h
    simp only [Except.ok.injEq] at h
    exact ⟨e, tbl, rfl, h.symm⟩

/-- The canonical description of the member list _save writes: one member
per distinct identity key, prefixed tensors/, in ascending Python string
order, with no duplicates. -/
theorem save_members_canonical (g : Obj) (ar : Archive)
    (hcpu : AllCpu g) (hsave : _save _package_registry g = .ok ar) :
    ar.members.map Prod.fst =
      (List.insertionSort (fun a b : String => pyStrLe a b = true)
        ((storagesOf g).map storageKey).dedup).map (fun k => "tensors/" ++ k) ∧
    (ar.members.map Prod.fst).Nodup ∧
    List.Pairwise (fun p q : String => pyStrLe p q = true) (ar.members.map Prod.fst) ∧
    ar.members.length = ((storagesOf g).map storageKey).dedup.length := by
  obtain ⟨e, tbl, henc, har⟩ := save_inv hsave
  subst har
  have hnodup : (tbl.map Prod.fst).Nodup :=
    encodeGraph_keys_nodup g [] e tbl henc (by simp)
  have hmem : ∀ k, k ∈ tbl.map Prod.fst ↔ k ∈ ((storagesOf g).map storageKey).dedup := by
    intro k
    constructor
    · intro hk
      obtain ⟨v, hv⟩ := (dictFind_isSome_iff_mem k tbl).mpr hk
      rcases (encodeGraph_table g [] e tbl henc).1 k v hv with h0 | h0
      · simp [dictFind] at h0
      · rw [List.mem_dedup]
        exact List.mem_map.mpr ⟨v, h0.1, h0.2⟩
    · intro hk
      rw [List.mem_dedup] at hk
      obtain ⟨s, hs, hks⟩ := List.mem_map.mp hk
      obtain ⟨v1, hv1⟩ := (encodeGraph_table g [] e tbl henc).2.2 s hs
      subst hks
      exact (dictFind_isSome_iff_mem _ tbl).mp ⟨v1, hv1⟩
  have hperm : List.Perm (tbl.map Prod.fst) ((storagesOf g).map storageKey).dedup :=
    (List.perm_ext_iff_of_nodup hnodup (List.nodup_dedup _)).mpr hmem
  have hsortEq : List.insertionSort (fun a b : String => pyStrLe a b = true)
      (tbl.map Prod.fst) =
      List.insertionSort (fun a b : String => pyStrLe a b = true)
        ((storagesOf g).map storageKey).dedup :=
    List.eq_of_perm_of_sorted
      ((List.perm_insertionSort _ _).trans
        (hperm.trans (List.perm_insertionSort _ _).symm))
      (List.sorted_insertionSort _ _) (List.sorted_insertionSort _ _)
  have hkeysNodup : (List.insertionSort (fun a b : String => pyStrLe a b = true)
      (tbl.map Prod.fst)).Nodup :=
    (List.perm_insertionSort _ _).nodup_iff.mpr hnodup
  have hpaths : (((List.insertionSort (fun a b : String => pyStrLe a b = true)
      (tbl.map Prod.fst)).map
      (fun k => ("tensors/" ++ k, (tableEntry tbl k).data))).map Prod.fst) =
      (List.insertionSort (fun a b : String => pyStrLe a b = true)
        (tbl.map Prod.fst)).map (fun k => "tensors/" ++ k) := by
    rw [List.map_map]
    rfl
  refine ⟨?_, ?_, ?_, ?_⟩
  · rw [hpaths, hsortEq]
  · rw [hpaths]
    exact hkeysNodup.map tensors_path_injective
  · rw [hpaths]
    exact List.Pairwise.map (fun k => "tensors/" ++ k)
      (fun a b hab => pyStrLe_tensors_prefix hab)
      (List.sorted_insertionSort _ _)
  · rw [List.length_map, (List.perm_insertionSort _ _).length_eq, hperm.length_eq]

/-- Claim C6 (confirmed): for a graph whose tensor views range over K
distinct storages, _save writes exactly K storage members — the member
paths are precisely the tensors/ prefixed distinct identity keys, sorted
ascending in Python string order — so no storage is written twice. -/
theorem c6_one_member_per_buffer (g : Obj) (ar : Archive)
    (hcpu : AllCpu g) (hsave : _save _package_registry g = .ok ar) :
    ar.members.map Prod.fst =
      (List.insertionSort (fun a b : String => pyStrLe a b = true)
        ((storagesOf g).map storageKey).dedup).map (fun k => "tensors/" ++ k) ∧
    (ar.members.map Prod.fst).Nodup ∧
    List.Pairwise (fun p q : String => pyStrLe p q = true) (ar.members.map Prod.fst) ∧
    ar.members.length = ((storagesOf g).map storageKey).dedup.length :=
  save_members_canonical g ar hcpu hsave

/-- Witness for C6: three tensor views over two distinct storages give
exactly two members, deduplicated and sorted. -/
theorem c6_one_member_per_buffer_witness :
    ((_save _package_registry exampleGraph).map
      (fun ar => ar.members.map Prod.fst) = .ok ["tensors/12", "tensors/7"]) ∧
    (Archive.mk saveMetadata
      (.pair (.tens ⟨"storage", "FloatStorage", "7", "cpu", 3, none⟩ 0 [3] [1])
        (.pair (.tens ⟨"storage", "FloatStorage", "7", "cpu", 3, none⟩ 1 [2] [1])
          (.tens ⟨"storage", "IntStorage", "12", "cpu", 2, none⟩ 0 [2] [1])))
      [("tensors/12", [5, 6]), ("tensors/7", [10, 20, 30])]).members.length =
      ((storagesOf exampleGraph).map storageKey).dedup.length := by
  refine ⟨rfl, ?_⟩
  exact (c6_one_member_per_buffer exampleGraph _ (by decide) rfl).2.2.2

/-! ## Looking storages back up in the written members -/

theorem dictFind_path_mapped (keys : List String) (f : String → List Nat)
    (k : String) (hk : k ∈ keys) :
    dictFind ("tensors/" ++ k)
      (keys.map (fun k1 => ("tensors/" ++ k1, f k1))) = some (f k) := by
  induction keys with
  | nil => simp at hk
  | cons k1 rest ih =>
    by_cases h : k1 = k
    · subst h; simp [dictFind]
    · have hne : "tensors/" ++ k1 ≠ "tensors/" ++ k :=
        fun he => h (tensors_path_injective he)
      rcases List.mem_cons.mp hk with h2 | h2
      · exact absurd h2.symm h
      · simp only [List.map_cons, dictFind, hne, if_neg, ite_false]
        exact ih h2

theorem save_members_lookup (g : Obj) (ar : Archive) (hco : Coherent g)
    (hsave : _save _package_registry g = .ok ar) :
    ∀ s ∈ storagesOf g,
      dictFind ("tensors/" ++ storageKey s) ar.members = some s.data := by
  obtain ⟨e, tbl, henc, har⟩ := save_inv hsave
  subst har
  intro s hs
  obtain ⟨v1, hv1⟩ := (encodeGraph_table g [] e tbl henc).2.2 s hs
  have hv1g : v1 ∈ storagesOf g ∧ storageKey v1 = storageKey s := by
    rcases (encodeGraph_table g [] e tbl henc).1 _ v1 hv1 with h0 | h0
    · simp [dictFind] at h0
    · exact h0
  have hveq : v1 = s := hco v1 hv1g.1 s hs hv1g.2
  rw [hveq] at hv1
  have hk : storageKey s ∈ tbl.map Prod.fst :=
    (dictFind_isSome_iff_mem _ tbl).mp ⟨s, hv1⟩
  have hk2 : storageKey s ∈ List.insertionSort
      (fun a b : String => pyStrLe a b = true) (tbl.map Prod.fst) := by
    rw [List.mem_insertionSort]
    exact hk
  have hfound := dictFind_path_mapped
    (List.insertionSort (fun a b : String => pyStrLe a b = true) (tbl.map Prod.fst))
    (fun k => (tableEntry tbl k).data) (storageKey s) hk2
  simp only [Archive.mk.injEq]
  rw [hfound]
  simp [tableEntry, hv1]

/-! ## Round-trip simulation -/

/-- Two object graphs carry the same tensor views: identical structure
and, tensor by tensor, identical storage offset, shape, stride and
storage byte content. -/
inductive SameViews : Obj → Obj → Prop where
  | leaf (v : Nat) : SameViews (.leaf v) (.leaf v)
  | tens (t1 t2 : Tensor) (hoff : t1.storage_offset = t2.storage_offset)
      (hsize : t1.size = t2.size) (hstride : t1.stride = t2.stride)
      (hdata : t1.storage.data = t2.storage.data) :
      SameViews (.tens t1) (.tens t2)
  | pair {a1 b1 a2 b2 : Obj} : SameViews a1 a2 → SameViews b1 b2 →
      SameViews (.pair a1 b1) (.pair a2 b2)

theorem decode_encode_sim (members : List (String × List Nat)) (g : Obj) :
    ∀ tbl cache, AllCpu g →
    (∀ s ∈ storagesOf g,
      dictFind ("tensors/" ++ storageKey s) members = some s.data) →
    (∀ k st, dictFind k cache = some st →
      dictFind ("tensors/" ++ k) members = some st.data) →
    ∀ e tbl1, encodeGraph _package_registry g tbl = .ok (e, tbl1) →
    ∃ g2 cache1,
      decodeGraph members (_get_restore_location _package_registry .missing) e cache =
        .ok (g2, cache1) ∧ SameViews g g2 ∧
      (∀ k st, dictFind k cache1 = some st →
        dictFind ("tensors/" ++ k) members = some st.data) := by
  induction g with
  | leaf v =>
    intro tbl cache _ _ hcache e tbl1 h
    rw [(encodeGraph_leaf_inv h).1]
    exact ⟨.leaf v, cache, rfl, SameViews.leaf v, hcache⟩
  | tens t =>
    intro tbl cache hcpu hmem hcache e tbl1 h
    obtain ⟨ref, hp, he⟩ := encodeGraph_tens_inv h
    subst he
    have hm : t.storage.module = "torch" := hcpu _ (by simp [storagesOf])
    have hrefeq : ref = ⟨"storage", t.storage.typeName, toString t.storage.cdata,
        "cpu", t.storage.size, none⟩ := by
      rw [persistent_id_cpu tbl t.storage hm] at hp
      simp only [Except.ok.injEq, Prod.mk.injEq] at hp
      exact hp.1.symm
    subst hrefeq
    have hms : dictFind ("tensors/" ++ toString t.storage.cdata) members =
        some t.storage.data := hmem t.storage (by simp [storagesOf])
    cases hc : dictFind (toString t.storage.cdata) cache with
    | some st =>
      have hdata : st.data = t.storage.data := by
        have h1 := hcache _ _ hc
        rw [hms] at h1
        exact (Option.some.inj h1).symm
      refine ⟨.tens ⟨st, t.storage_offset, t.size, t.stride⟩, cache, ?_, ?_, hcache⟩
      · simp [decodeGraph, persistent_load, hc]
      · exact SameViews.tens _ _ rfl rfl rfl hdata.symm
    | none =>
      refine ⟨.tens ⟨⟨0, "torch", t.storage.typeName, 0, t.storage.data, none⟩,
        t.storage_offset, t.size, t.stride⟩,
        dictStore (toString t.storage.cdata)
          ⟨0, "torch", t.storage.typeName, 0, t.storage.data, none⟩ cache,
        ?_, ?_, ?_⟩
      · have hrest : _get_restore_location _package_registry .missing
            ⟨0, "torch", t.storage.typeName, 0,
              List.replicate t.storage.data.length 0, none⟩ "cpu" =
            .ok (⟨0, "torch", t.storage.typeName, 0,
              List.replicate t.storage.data.length 0, none⟩ : Storage) := by
          rw [_get_restore_location]
          exact default_restore_cpu _
        simp [decodeGraph, persistent_load, hc, hrest, zipOpen, hms, allocStorage,
          Storage.size]
      · exact SameViews.tens _ _ rfl rfl rfl rfl
      · intro k st hfind
        rw [dictFind_dictStore] at hfind
        by_cases hk : toString t.storage.cdata = k
        · rw [if_pos hk] at hfind
          cases hfind
          rw [← hk]
          exact hms
        · rw [if_neg hk] at hfind
          exact hcache k st hfind
  | pair a b iha ihb =>
    intro tbl cache hcpu hmem hcache e tbl1 h
    obtain ⟨ea, tbla, eb, ha, hb, he⟩ := encodeGraph_pair_inv h
    subst he
    obtain ⟨ga, cachea, hda, hsa, hcachea⟩ := iha tbl cache (allCpu_pair_left hcpu)
      (fun s hs => hmem s (by simp [storagesOf]; exact Or.inl hs)) hcache ea tbla ha
    obtain ⟨gb, cacheb, hdb, hsb, hcacheb⟩ := ihb tbla cachea (allCpu_pair_right hcpu)
      (fun s hs => hmem s (by simp [storagesOf]; exact Or.inr hs)) hcachea eb tbl1 hb
    exact ⟨.pair ga gb, cacheb, by simp [decodeGraph, hda, hdb], SameViews.pair hsa hsb,
      hcacheb⟩

/-- Claim C1 (confirmed): for a Python object graph (coherent identities)
whose storages are CPU storages of the modelled runtime, loading the
archive written by save succeeds and reconstructs tensor views with the
same storage offset, shape, stride and storage byte content. -/
theorem c1_load_after_save (g : Obj) (hcpu : AllCpu g) (hco : Coherent g) :
    ∃ ar g2, _save _package_registry g = .ok ar ∧
      _load _package_registry ar .missing = .ok g2 ∧ SameViews g g2 := by
  obtain ⟨e, tbl, henc⟩ := encodeGraph_ok _package_registry g
    (fun s hs => location_tag_cpu s (hcpu s hs)) []
  have hsave : _save _package_registry g = .ok (Archive.mk saveMetadata e
      ((List.insertionSort (fun a b : String => pyStrLe a b = true)
        (tbl.map Prod.fst)).map
        (fun k => ("tensors/" ++ k, (tableEntry tbl k).data)))) := by
    rw [_save, henc]
  have hmem := save_members_lookup g _ hco hsave
  obtain ⟨g2, cache1, hdec, hsame, _⟩ := decode_encode_sim
    ((List.insertionSort (fun a b : String => pyStrLe a b = true)
      (tbl.map Prod.fst)).map
      (fun k => ("tensors/" ++ k, (tableEntry tbl k).data)))
    g [] [] hcpu hmem (by simp [dictFind]) e tbl henc
  refine ⟨_, g2, hsave, ?_, hsame⟩
  rw [_load]
  simp only [saveMetadata]
  rw [if_neg (by simp), if_neg (by simp)]
  simp [hdec]

/-- Witness for C1 on a concrete graph of three views over two storages. -/
theorem c1_load_after_save_witness :
    ∃ ar g2, _save _package_registry exampleGraph = .ok ar ∧
      _load _package_registry ar .missing = .ok g2 ∧ SameViews exampleGraph g2 :=
  c1_load_after_save exampleGraph (by decide) (by decide)

/-! ## Claim C2: member naming -/

/-- Claim C2, counterexample: saving a single tensor over the storage
with identity 7 produces exactly one storage member, and its path is
tensors/7, not the buffers/7 the claim states. -/
theorem c2_counterexample_member_path :
    (_save _package_registry (.tens ⟨cpuStorage, 0, [3], [1]⟩)).map
      (fun ar => ar.members.map Prod.fst) = .ok ["tensors/7"] ∧
    ("tensors/7" : String) ≠ "buffers/7" :=
  ⟨rfl, by decide⟩

/-- Claim C2 as amended: the writer emits exactly one member per distinct
externalized storage and its path is tensors/(key) (not buffers/(key));
the written member for each storage holds that storage's bytes; and the
current-archive reader reads a fresh key from the member of that same
name: the storage it returns carries exactly the bytes of member
tensors/(key), and a missing member of exactly that name raises KeyError
on it. -/
theorem c2_member_paths (g : Obj) (ar : Archive) (hcpu : AllCpu g)
    (hco : Coherent g) (hsave : _save _package_registry g = .ok ar) :
    (ar.members.map Prod.fst =
      (List.insertionSort (fun a b : String => pyStrLe a b = true)
        ((storagesOf g).map storageKey).dedup).map (fun k => "tensors/" ++ k)) ∧
    (∀ s ∈ storagesOf g,
      dictFind ("tensors/" ++ storageKey s) ar.members = some s.data) ∧
    (∀ (members : List (String × List Nat))
      (restore : Storage → String → Except PyErr Storage)
      (cache : LoadedTable) (ref : SavedRef) (restored : Storage)
      (bytes : List Nat),
      ref.typename = "storage" →
      dictFind ref.key cache = none →
      restore (allocStorage ref.storage_type ref.numel) ref.location = .ok restored →
      ref.view_metadata = none →
      (dictFind ("tensors/" ++ ref.key) members = none →
        persistent_load members restore cache ref =
          .error (.keyError ("tensors/" ++ ref.key))) ∧
      (dictFind ("tensors/" ++ ref.key) members = some bytes →
        persistent_load members restore cache ref =
          .ok (⟨restored.cdata, restored.module, restored.typeName,
            restored.device, bytes, restored.root_cdata⟩,
            dictStore ref.key ⟨restored.cdata, restored.module, restored.typeName,
              restored.device, bytes, restored.root_cdata⟩ cache))) := by
  refine ⟨(save_members_canonical g ar hcpu hsave).1,
    save_members_lookup g ar hco hsave, ?_⟩
  intro members restore cache ref restored bytes ht hfresh hrest hview
  constructor
  · intro habsent
    simp [persistent_load, ht, hfresh, hrest, zipOpen, habsent, hview]
  · intro hpresent
    simp [persistent_load, ht, hfresh, hrest, zipOpen, hpresent, hview]

/-- Witness for the amended C2 on the concrete example graph. -/
theorem c2_member_paths_witness :
    dictFind ("tensors/" ++ storageKey cpuStorage)
      (Archive.mk saveMetadata
        (.pair (.tens ⟨"storage", "FloatStorage", "7", "cpu", 3, none⟩ 0 [3] [1])
          (.pair (.tens ⟨"storage", "FloatStorage", "7", "cpu", 3, none⟩ 1 [2] [1])
            (.tens ⟨"storage", "IntStorage", "12", "cpu", 2, none⟩ 0 [2] [1])))
        [("tensors/12", [5, 6]), ("tensors/7", [10, 20, 30])]).members =
      some cpuStorage.data :=
  (c2_member_paths exampleGraph _ (by decide) (by decide) rfl).2.1 cpuStorage
    (by decide)

end Torch
